import Mathlib

/-!
Shallow embedding of the geocoding resolution core of the ETL repository
(`scripts/trash_bin_etl.py` together with the load logic of
`scripts/base_etl.py`), and theorems settling the frozen claims about it.

Strings are modelled as `List Char` (Python 3 strings are sequences of
code points).  Python string primitives (`strip`, `replace`, `split`,
regex substitution) are embedded as executable functions; recursions that
are not structural use an explicit fuel argument equal to the input
length, with adequacy lemmas showing the fuel never runs out.
-/

namespace Etl

/-- Python whitespace (the set recognised by `str.strip`, `str.split`
and by `\s` of the `re` module on `str`): ASCII whitespace, the C1
separators, NEL, NBSP and the Unicode space separators. -/
def isPySpace (c : Char) : Bool :=
  let n := c.toNat
  n = 0x20 || (0x9 ≤ n && n ≤ 0xD) || (0x1C ≤ n && n ≤ 0x1F) ||
  n = 0x85 || n = 0xA0 || n = 0x1680 || (0x2000 ≤ n && n ≤ 0x200A) ||
  n = 0x2028 || n = 0x2029 || n = 0x202F || n = 0x205F || n = 0x3000

/-- Hangul syllable block `가`..`힣` (U+AC00..U+D7A3), the `가-힣` range of
the source's character-class regex. -/
def isHangulSyl (c : Char) : Bool :=
  0xAC00 ≤ c.toNat && c.toNat ≤ 0xD7A3

/-- The allow-set of `re.sub(r'[^a-zA-Z0-9가-힣\s\-\,]', '', text)`:
ASCII letters, digits, Hangul syllables, whitespace, hyphen, comma. -/
def isAllowedChar (c : Char) : Bool :=
  (('a' ≤ c && c ≤ 'z') || ('A' ≤ c && c ≤ 'Z') || ('0' ≤ c && c ≤ '9') ||
   isHangulSyl c || isPySpace c || c = '-' || c = ',')

/-- Python `str.strip()`: drop leading and trailing whitespace. -/
def pyStrip (s : List Char) : List Char :=
  ((s.dropWhile isPySpace).reverse.dropWhile isPySpace).reverse

/-- Fuel-driven body of Python `str.replace(old, new)` (all
non-overlapping occurrences, leftmost first).  The source only calls
`replace` with non-empty patterns; for `old = []` this embedding returns
the input unchanged (Python would intersperse instead). -/
def pyReplaceAux (old new : List Char) : Nat → List Char → List Char
  | _, [] => []
  | 0, s => s
  | f + 1, c :: cs =>
    if old.isPrefixOf (c :: cs) && !old.isEmpty then
      new ++ pyReplaceAux old new f ((c :: cs).drop old.length)
    else
      c :: pyReplaceAux old new f cs

/-- Python `s.replace(old, new)`. -/
def pyReplace (old new s : List Char) : List Char :=
  pyReplaceAux old new s.length s

/-- Helper for the regex `\(.*?\)`: given the characters after a `'('`,
return the suffix after the first `')'`, provided no newline intervenes
(`.` of the `re` module does not match a newline). -/
def findClose : List Char → Option (List Char)
  | [] => none
  | c :: cs => if c = ')' then some cs else if c = '\n' then none else findClose cs

/-- Fuel-driven body of `re.sub(r'\(.*?\)', '', text)`: remove each
leftmost parenthesized segment entirely, scanning left to right. -/
def parenSubAux : Nat → List Char → List Char
  | _, [] => []
  | 0, s => s
  | f + 1, c :: cs =>
    if c = '(' then
      match findClose cs with
      | some rest => parenSubAux f rest
      | none => c :: parenSubAux f cs
    else
      c :: parenSubAux f cs

/-- `re.sub(r'\(.*?\)', '', text)`. -/
def parenSub (s : List Char) : List Char :=
  parenSubAux s.length s

/-- Fuel-driven body of Python `str.split()` (split on whitespace runs,
no empty fields). -/
def pySplitAux : Nat → List Char → List (List Char)
  | _, [] => []
  | 0, _ => []
  | f + 1, c :: cs =>
    if isPySpace c then pySplitAux f cs
    else (c :: cs.takeWhile (fun d => !isPySpace d)) ::
         pySplitAux f (cs.dropWhile (fun d => !isPySpace d))

/-- Python `s.split()`. -/
def pySplit (s : List Char) : List (List Char) :=
  pySplitAux s.length s

/-- Tail part of `' '.join`: prefix every further word with a space. -/
def spaceJoinTail : List (List Char) → List Char
  | [] => []
  | w :: ws => ' ' :: (w ++ spaceJoinTail ws)

/-- Python `' '.join(ws)`. -/
def spaceJoin : List (List Char) → List Char
  | [] => []
  | w :: ws => w ++ spaceJoinTail ws

/-- Python `pat in s` (substring containment). -/
def containsSub (pat : List Char) : List Char → Bool
  | [] => pat.isPrefixOf []
  | c :: cs => pat.isPrefixOf (c :: cs) || containsSub pat cs

/-- `TrashBinETL.clean_address`.  The `Option` input models the
`None`/`NaN` case of `pd.isna`; `none` and the empty string are both
rejected by `if not text or pd.isna(text)`. -/
def cleanAddress : Option (List Char) → List Char
  | none => []
  | some text =>
    if text = [] then []
    else
      let t := pyStrip text
      let t := pyReplace ("청게천".toList) ("청계천".toList) t
      let t := pyReplace ("을지로지하".toList) ("을지로 지하".toList) t
      let t := parenSub t
      let t := t.filter isAllowedChar
      pyStrip (spaceJoin (pySplit t))

/-! ### GeocodeClient and GeocodeResolver -/

/-- One HTTP answer of the geocoding provider, as `call_naver_api` reads
it: the status code, and `payload = some (y, x)` exactly when the body
had `status == 'OK'` and a non-empty `addresses` array, carrying the
first candidate's coordinates (`float(target['y'])`, `float(target['x'])`).
Transport errors and malformed bodies behave as a non-200 status /
`none` payload, which the client turns into an absent result. -/
structure HttpResp where
  status : Nat
  payload : Option (ℚ × ℚ)
  deriving DecidableEq

/-- The provider, as a deterministic map from query strings to answers. -/
abbrev GeoEnv : Type := List Char → HttpResp

/-- NCP credentials read in `TrashBinETL.__init__` (after stripping the
environment values).  The resolver's guard tests only `id`. -/
structure Creds where
  id : List Char
  secret : List Char
  deriving DecidableEq

/-- One logged network call: the query sent and the value of the
`auth_failed` flag at the moment the call was issued. -/
abbrev CallTrace : Type := List (List Char × Bool)

/-- `TrashBinETL.call_naver_api`.  Inputs: the provider, the current
`auth_failed` flag, the query.  Output: the coordinate pair returned
(`none` for Python's `(None, None)`), the flag afterwards (401/403 sets
it), and the list of network calls issued. -/
def callNaverApi (env : GeoEnv) (af : Bool) (q : List Char) :
    Option (ℚ × ℚ) × Bool × CallTrace :=
  if q = [] || q.length < 2 then (none, af, [])
  else
    let r := env q
    if r.status = 200 then
      match r.payload with
      | some yx => (some yx, af, [(q, af)])
      | none => (none, af, [(q, af)])
    else if r.status = 401 || r.status = 403 then (none, true, [(q, af)])
    else (none, af, [(q, af)])

/-- Python truthiness of the returned latitude: `if lat:` is false for
`None` and for `0.0`. -/
def truthyCoord : Option (ℚ × ℚ) → Bool
  | none => false
  | some (y, _) => y ≠ 0

/-- `f"서울특별시 {city_name} {rest}"`. -/
def mkQuery (city rest : List Char) : List Char :=
  "서울특별시 ".toList ++ city ++ " ".toList ++ rest

/-- Last position of `'역'` in a character list, if any. -/
def findLastYeok : List Char → Option Nat
  | [] => none
  | c :: cs =>
    match findLastYeok cs with
    | some k => some (k + 1)
    | none => if c = '역' then some 0 else none

/-- Match of `([가-힣]+역)` anchored at the head of `l` (whose head is a
Hangul syllable): greedy `[가-힣]+` takes the maximal Hangul run and
backtracks to the last `'역'` strictly inside it. -/
def stationMatchAt (l : List Char) : Option (List Char) :=
  let run := l.takeWhile isHangulSyl
  match findLastYeok (run.drop 1) with
  | some k => some (run.take (k + 2))
  | none => none

/-- `re.search(r'([가-힣]+역)', text)`: scan positions left to right and
return the first match. -/
def findStation : List Char → Option (List Char)
  | [] => none
  | c :: cs =>
    if isHangulSyl c then
      match stationMatchAt (c :: cs) with
      | some g => some g
      | none => findStation cs
    else findStation cs

/-- `TrashBinETL.get_coordinates`: the three-tier geocoding strategy.
Inputs: provider, credentials, the `auth_failed` flag at entry, and the
record's `city_name`, `address`, `location_desc`.  Output: the resolved
coordinates, the flag after the attempt, and the network calls issued.
Note, as in the source, the flag is tested only at entry: the tier
sequence does not re-check it. -/
def getCoordinates (env : GeoEnv) (creds : Creds) (af : Bool)
    (city addr desc : List Char) : Option (ℚ × ℚ) × Bool × CallTrace :=
  if af || creds.id = [] then (none, af, [])
  else
    let ca := cleanAddress (some addr)
    let r1 := callNaverApi env af (mkQuery city ca)
    if truthyCoord r1.1 then r1
    else
      let r2 :=
        if containsSub ("지하".toList) ca then
          let r := callNaverApi env r1.2.1
            (mkQuery city (pyStrip (pyReplace ("지하".toList) [] ca)))
          (r.1, r.2.1, r1.2.2 ++ r.2.2)
        else (none, r1.2.1, r1.2.2)
      if truthyCoord r2.1 then r2
      else
        let combined := addr ++ " ".toList ++ desc
        if containsSub ("역".toList) combined then
          match findStation combined with
          | some st =>
            let r3 := callNaverApi env r2.2.1 (mkQuery city st)
            if truthyCoord r3.1 then (r3.1, r3.2.1, r2.2.2 ++ r3.2.2)
            else (none, r3.2.1, r2.2.2 ++ r3.2.2)
          | none => (none, r2.2.1, r2.2.2)
        else (none, r2.2.1, r2.2.2)

/-- The tier-1 query of `get_coordinates`:
`f"서울특별시 {city_name} {clean_addr}"`. -/
def tier1Query (city addr : List Char) : List Char :=
  mkQuery city (cleanAddress (some addr))

/-- The tier-2 query: the tier-1 query with the `지하` keyword removed
from the cleaned address and the remainder re-stripped
(`clean_addr.replace('지하', '').strip()`). -/
def tier2Query (city addr : List Char) : List Char :=
  mkQuery city (pyStrip (pyReplace ("지하".toList) [] (cleanAddress (some addr))))

/-- The text tier 3 inspects: `f"{address} {location_desc}"` (raw
address, not the cleaned one). -/
def combinedText (addr desc : List Char) : List Char :=
  addr ++ " ".toList ++ desc

/-- One tier-1 client attempt, at a given flag state. -/
def tier1Attempt (env : GeoEnv) (af : Bool) (city addr : List Char) :
    Option (ℚ × ℚ) × Bool × CallTrace :=
  callNaverApi env af (tier1Query city addr)

/-- One tier-2 client attempt, at a given flag state. -/
def tier2Attempt (env : GeoEnv) (af : Bool) (city addr : List Char) :
    Option (ℚ × ℚ) × Bool × CallTrace :=
  callNaverApi env af (tier2Query city addr)

/-- One tier-3 client attempt for an extracted station name, at a given
flag state. -/
def tier3Attempt (env : GeoEnv) (af : Bool) (city st : List Char) :
    Option (ℚ × ℚ) × Bool × CallTrace :=
  callNaverApi env af (mkQuery city st)

/-! ### ConcurrentResolutionPool (`TrashBinETL.transform`) -/

/-- One input row of `transform` after column renaming. -/
structure AddressRecord where
  city : List Char
  addr : List Char
  desc : List Char

/-- The value a worker's task computes for the record at a given row
index, given the `auth_failed` flag it observed when it started:
the coordinate component of `get_coordinates`. -/
def workerResult (env : GeoEnv) (creds : Creds) (af : Bool) :
    Option AddressRecord → Option (ℚ × ℚ)
  | none => none
  | some r => (getCoordinates env creds af r.city r.addr r.desc).1

/-- One completed future as the loop of `transform` consumes it: the
original row index (`future_to_index[future]`) and the worker's result. -/
abbrev Completion : Type := Nat × Option (ℚ × ℚ)

/-- The `as_completed` loop of `transform`: iterate over completions in
arrival order; at the start of iteration `k`, if the shared
`auth_failed` flag (read as `flagAt k`) is set, break; otherwise write
the result into its index-owned slot.  Returns the slot list and the
list of indices written, in write order. -/
def collectLoop (flagAt : Nat → Bool) :
    List Completion → Nat → List (Option (Option (ℚ × ℚ))) → List Nat →
    List (Option (Option (ℚ × ℚ))) × List Nat
  | [], _, acc, tr => (acc, tr.reverse)
  | (i, v) :: rest, k, acc, tr =>
    if flagAt k then (acc, tr.reverse)
    else collectLoop flagAt rest (k + 1) (acc.set i (some v)) (i :: tr)

/-- `results = [None] * len(addresses)` followed by the completion loop. -/
def resolveAllSlots (n : Nat) (comps : List Completion) (flagAt : Nat → Bool) :
    List (Option (Option (ℚ × ℚ))) × List Nat :=
  collectLoop flagAt comps 0 (List.replicate n none) []

/-- `df['latitude'] = [r[0] if r else None for r in results[:len(df)]]`:
an unwritten slot gives `None`; a written pair is truthy (a 2-tuple), so
its first component is taken, itself possibly `None`. -/
def latColumn (n : Nat) (slots : List (Option (Option (ℚ × ℚ)))) :
    List (Option ℚ) :=
  (slots.take n).map fun r =>
    match r with
    | some (some (y, _)) => some y
    | some none => none
    | none => none

/-! ### FailureLog (tail of `transform`) and DatasetLoader (`load`) -/

/-- `fail_count = len(df) - df['latitude'].notna().sum()`: the number of
rows whose latitude is absent. -/
def failCount (lats : List (Option ℚ)) : Nat :=
  (lats.filter (fun o => o.isNone)).length

/-- The `if fail_count > 0:` block of `transform`: whether the failure
log is invoked, and whether the (unguarded) artifact write raised.
`writeOk` abstracts the success of `fail_df.to_csv(...)`. -/
def failureLogStep (lats : List (Option ℚ)) (writeOk : Bool) : Bool × Bool :=
  if 0 < failCount lats then (true, !writeOk) else (false, false)

/-- The tail of `transform` around the failure log: if the artifact
write raises, the exception propagates (`none`); otherwise `transform`
returns its dataset. -/
def transformTail (lats : List (Option ℚ)) (writeOk : Bool) :
    Option (List (Option ℚ)) :=
  if (failureLogStep lats writeOk).2 then none else some lats

/-- An observable write against the destination table. -/
inductive DbAction where
  | truncate
  | insertRows (n : Nat)
  | updateGeom
  deriving DecidableEq

/-- `BaseETL.load`: on a non-empty dataset, truncate (with identity
restart and cascade), bulk-insert, then back-fill geometry; otherwise
print a skip message and touch nothing.  `none` models `df is None`. -/
def baseLoad {α : Type} (df : Option (List α)) : List DbAction :=
  match df with
  | some rows =>
    if rows.isEmpty then []
    else [DbAction.truncate, DbAction.insertRows rows.length, DbAction.updateGeom]
  | none => []

/-- `TrashBinETL.load`: return early on `None` or empty, else delegate
to `BaseETL.load`. -/
def trashBinLoad {α : Type} (df : Option (List α)) : List DbAction :=
  match df with
  | none => []
  | some rows => if rows.isEmpty then [] else baseLoad (some rows)

/-! ### Fuel adequacy and step equations for the string primitives -/

theorem pyReplaceAux_fuel (old new : List Char) :
    ∀ (f g : Nat) (s : List Char), s.length ≤ f → s.length ≤ g →
      pyReplaceAux old new f s = pyReplaceAux old new g s := by
  intro f
  induction f with
  | zero =>
    intro g s hf _
    have hs : s = [] := List.eq_nil_of_length_eq_zero (Nat.le_zero.mp hf)
    subst hs
    cases g <;> rfl
  | succ f ih =>
    intro g s hf hg
    cases s with
    | nil => cases g <;> rfl
    | cons c cs =>
      cases g with
      | zero => exact absurd hg (by simp)
      | succ g =>
        have hf1 : cs.length ≤ f := Nat.succ_le_succ_iff.mp hf
        have hg1 : cs.length ≤ g := Nat.succ_le_succ_iff.mp hg
        simp only [pyReplaceAux]
        by_cases hp : (old.isPrefixOf (c :: cs) && !old.isEmpty) = true
        · have hold : 1 ≤ old.length := by
            cases old with
            | nil => simp at hp
            | cons o os => simp
          have hdl : ((c :: cs).drop old.length).length ≤ cs.length := by
            simp only [List.length_drop, List.length_cons]
            omega
          rw [if_pos hp, if_pos hp]
          exact congrArg (new ++ ·)
            (ih g _ (le_trans hdl hf1) (le_trans hdl hg1))
        · rw [if_neg hp, if_neg hp]
          exact congrArg (c :: ·) (ih g cs hf1 hg1)

theorem pyReplace_cons (old new : List Char) (c : Char) (cs : List Char) :
    pyReplace old new (c :: cs) =
      if old.isPrefixOf (c :: cs) && !old.isEmpty then
        new ++ pyReplace old new ((c :: cs).drop old.length)
      else c :: pyReplace old new cs := by
  simp only [pyReplace, List.length_cons, pyReplaceAux]
  by_cases hp : (old.isPrefixOf (c :: cs) && !old.isEmpty) = true
  · have hold : 1 ≤ old.length := by
      cases old with
      | nil => simp at hp
      | cons o os => simp
    have hdl : ((c :: cs).drop old.length).length ≤ cs.length := by
      simp only [List.length_drop, List.length_cons]
      omega
    rw [if_pos hp, if_pos hp]
    exact congrArg (new ++ ·) (pyReplaceAux_fuel old new cs.length _ _ hdl le_rfl)
  · rw [if_neg hp, if_neg hp]

theorem findClose_length :
    ∀ (cs rest : List Char), findClose cs = some rest → rest.length < cs.length := by
  intro cs
  induction cs with
  | nil => intro rest h; simp [findClose] at h
  | cons c cs ih =>
    intro rest h
    simp only [findClose] at h
    by_cases hc : c = ')'
    · rw [if_pos hc] at h
      cases h
      simp
    · rw [if_neg hc] at h
      by_cases hn : c = '\n'
      · rw [if_pos hn] at h; cases h
      · rw [if_neg hn] at h
        exact Nat.lt_trans (ih rest h) (Nat.lt_succ_self _)

theorem parenSubAux_fuel :
    ∀ (f g : Nat) (s : List Char), s.length ≤ f → s.length ≤ g →
      parenSubAux f s = parenSubAux g s := by
  intro f
  induction f with
  | zero =>
    intro g s hf _
    have hs : s = [] := List.eq_nil_of_length_eq_zero (Nat.le_zero.mp hf)
    subst hs
    cases g <;> rfl
  | succ f ih =>
    intro g s hf hg
    cases s with
    | nil => cases g <;> rfl
    | cons c cs =>
      cases g with
      | zero => exact absurd hg (by simp)
      | succ g =>
        have hf1 : cs.length ≤ f := Nat.succ_le_succ_iff.mp hf
        have hg1 : cs.length ≤ g := Nat.succ_le_succ_iff.mp hg
        simp only [parenSubAux]
        by_cases hc : c = '('
        · simp only [hc, if_true]
          cases hfc : findClose cs with
          | none => exact congrArg (_ :: ·) (ih g cs hf1 hg1)
          | some rest =>
            have hr : rest.length ≤ cs.length :=
              Nat.le_of_lt (findClose_length cs rest hfc)
            exact ih g rest (le_trans hr hf1) (le_trans hr hg1)
        · simp only [hc, if_false]
          exact congrArg (c :: ·) (ih g cs hf1 hg1)

theorem parenSub_cons_close (cs rest : List Char) (h : findClose cs = some rest) :
    parenSub ('(' :: cs) = parenSub rest := by
  have hr : rest.length ≤ cs.length := Nat.le_of_lt (findClose_length cs rest h)
  simp only [parenSub, List.length_cons, parenSubAux, if_true, h]
  exact parenSubAux_fuel cs.length rest.length rest hr le_rfl

theorem parenSub_cons_noclose (cs : List Char) (h : findClose cs = none) :
    parenSub ('(' :: cs) = '(' :: parenSub cs := by
  simp only [parenSub, List.length_cons, parenSubAux, if_true, h]

theorem parenSub_cons_other (c : Char) (cs : List Char) (h : ¬ c = '(') :
    parenSub (c :: cs) = c :: parenSub cs := by
  simp only [parenSub, List.length_cons, parenSubAux, if_neg h]

theorem pySplitAux_fuel :
    ∀ (f g : Nat) (s : List Char), s.length ≤ f → s.length ≤ g →
      pySplitAux f s = pySplitAux g s := by
  intro f
  induction f with
  | zero =>
    intro g s hf _
    have hs : s = [] := List.eq_nil_of_length_eq_zero (Nat.le_zero.mp hf)
    subst hs
    cases g <;> rfl
  | succ f ih =>
    intro g s hf hg
    cases s with
    | nil => cases g <;> rfl
    | cons c cs =>
      cases g with
      | zero => exact absurd hg (by simp)
      | succ g =>
        have hf1 : cs.length ≤ f := Nat.succ_le_succ_iff.mp hf
        have hg1 : cs.length ≤ g := Nat.succ_le_succ_iff.mp hg
        simp only [pySplitAux]
        by_cases hc : isPySpace c = true
        · simp only [hc, if_true]
          exact ih g cs hf1 hg1
        · simp only [hc, if_false]
          have hdw : (cs.dropWhile (fun d => !isPySpace d)).length ≤ cs.length :=
            (List.dropWhile_sublist _).length_le
          exact congrArg (_ :: ·) (ih g _ (le_trans hdw hf1) (le_trans hdw hg1))

theorem pySplit_cons_space (c : Char) (cs : List Char) (h : isPySpace c = true) :
    pySplit (c :: cs) = pySplit cs := by
  simp only [pySplit, List.length_cons, pySplitAux, h, if_true]

theorem pySplit_cons_word (c : Char) (cs : List Char) (h : isPySpace c = false) :
    pySplit (c :: cs) =
      (c :: cs.takeWhile (fun d => !isPySpace d)) ::
        pySplit (cs.dropWhile (fun d => !isPySpace d)) := by
  simp only [pySplit, List.length_cons, pySplitAux, h, if_false]
  refine congrArg (_ :: ·) ?_
  have hdw : (cs.dropWhile (fun d => !isPySpace d)).length ≤ cs.length :=
    (List.dropWhile_sublist _).length_le
  exact pySplitAux_fuel cs.length _ _ hdw le_rfl

/-! ### Identity lemmas for the normalization steps -/

theorem pyReplace_of_not_contains (old new s : List Char)
    (h : containsSub old s = false) : pyReplace old new s = s := by
  induction s with
  | nil => rfl
  | cons c cs ih =>
    simp only [containsSub, Bool.or_eq_false_iff] at h
    rw [pyReplace_cons, if_neg (by simp [h.1]), ih h.2]

theorem parenSub_of_no_open (s : List Char) (h : ∀ c ∈ s, ¬ c = '(') :
    parenSub s = s := by
  induction s with
  | nil => rfl
  | cons c cs ih =>
    rw [parenSub_cons_other c cs (h c (List.mem_cons_self c cs)),
      ih (fun d hd => h d (List.mem_cons_of_mem c hd))]

theorem dropWhile_cons_false {p : Char → Bool} {c : Char} {cs : List Char}
    (h : p c = false) : (c :: cs).dropWhile p = c :: cs := by
  simp [List.dropWhile_cons, h]

theorem takeWhile_append_of_all (p : Char → Bool) (l₁ l₂ : List Char)
    (h : ∀ c ∈ l₁, p c = true) :
    (l₁ ++ l₂).takeWhile p = l₁ ++ l₂.takeWhile p := by
  induction l₁ with
  | nil => rfl
  | cons c cs ih =>
    rw [List.cons_append, List.takeWhile_cons,
      if_pos (h c (List.mem_cons_self c cs)), List.cons_append,
      ih (fun d hd => h d (List.mem_cons_of_mem c hd))]

theorem dropWhile_append_of_all (p : Char → Bool) (l₁ l₂ : List Char)
    (h : ∀ c ∈ l₁, p c = true) :
    (l₁ ++ l₂).dropWhile p = l₂.dropWhile p := by
  induction l₁ with
  | nil => rfl
  | cons c cs ih =>
    rw [List.cons_append, List.dropWhile_cons,
      if_pos (h c (List.mem_cons_self c cs)),
      ih (fun d hd => h d (List.mem_cons_of_mem c hd))]

/-- Soundness of `split`: every field is a non-empty run of
non-whitespace characters of the input. -/
theorem pySplitAux_sound :
    ∀ (f : Nat) (s w : List Char), s.length ≤ f → w ∈ pySplitAux f s →
      w ≠ [] ∧ ∀ c ∈ w, isPySpace c = false ∧ c ∈ s := by
  intro f
  induction f with
  | zero =>
    intro s w hf hw
    have hs : s = [] := List.eq_nil_of_length_eq_zero (Nat.le_zero.mp hf)
    subst hs
    simp [pySplitAux] at hw
  | succ f ih =>
    intro s w hf hw
    cases s with
    | nil => simp [pySplitAux] at hw
    | cons c cs =>
      have hf1 : cs.length ≤ f := Nat.succ_le_succ_iff.mp hf
      simp only [pySplitAux] at hw
      by_cases hc : isPySpace c = true
      · rw [if_pos hc] at hw
        obtain ⟨hne, hall⟩ := ih cs w hf1 hw
        exact ⟨hne, fun d hd =>
          ⟨(hall d hd).1, List.mem_cons_of_mem c (hall d hd).2⟩⟩
      · rw [if_neg hc] at hw
        rcases List.mem_cons.mp hw with hw | hw
        · subst hw
          refine ⟨by simp, fun d hd => ?_⟩
          rcases List.mem_cons.mp hd with hd | hd
          · rw [hd]
            exact ⟨Bool.of_not_eq_true hc, List.mem_cons_self c cs⟩
          · have hp := List.mem_takeWhile_imp hd
            have hm : d ∈ cs := (List.takeWhile_sublist _).mem hd
            exact ⟨by simpa using hp, List.mem_cons_of_mem c hm⟩
        · have hdw : (cs.dropWhile (fun d => !isPySpace d)).length ≤ f :=
            le_trans (List.dropWhile_sublist _).length_le hf1
          obtain ⟨hne, hall⟩ := ih _ w hdw hw
          refine ⟨hne, fun d hd => ?_⟩
          have hm : d ∈ cs := (List.dropWhile_sublist _).mem (hall d hd).2
          exact ⟨(hall d hd).1, List.mem_cons_of_mem c hm⟩

theorem pySplit_sound (s w : List Char) (hw : w ∈ pySplit s) :
    w ≠ [] ∧ ∀ c ∈ w, isPySpace c = false ∧ c ∈ s :=
  pySplitAux_sound s.length s w le_rfl hw

/-- Splitting a space-joined list of non-empty space-free words recovers
the words. -/
theorem pySplit_spaceJoin (ws : List (List Char))
    (h : ∀ w ∈ ws, w ≠ [] ∧ ∀ c ∈ w, isPySpace c = false) :
    pySplit (spaceJoin ws) = ws := by
  induction ws with
  | nil => rfl
  | cons w ws ih =>
    obtain ⟨hne, hself⟩ := h w (List.mem_cons_self w ws)
    cases w with
    | nil => exact absurd rfl hne
    | cons c w₁ =>
      have hc : isPySpace c = false := hself c (List.mem_cons_self c w₁)
      have hw₁ : ∀ d ∈ w₁, (fun d => !isPySpace d) d = true := by
        intro d hd
        simp [hself d (List.mem_cons_of_mem c hd)]
      have hjoin : spaceJoin ((c :: w₁) :: ws)
          = c :: (w₁ ++ spaceJoinTail ws) := by
        simp [spaceJoin]
      rw [hjoin, pySplit_cons_word c _ hc,
        takeWhile_append_of_all _ w₁ _ hw₁,
        dropWhile_append_of_all _ w₁ _ hw₁]
      cases ws with
      | nil => simp [spaceJoinTail, pySplit, pySplitAux]
      | cons v vs =>
        have htail : spaceJoinTail (v :: vs) = ' ' :: spaceJoin (v :: vs) := by
          simp [spaceJoinTail, spaceJoin]
        have hsp : isPySpace ' ' = true := by decide
        rw [htail]
        rw [List.takeWhile_cons, if_neg (by simp [hsp]), List.append_nil,
          dropWhile_cons_false (by simp [hsp]), pySplit_cons_space _ _ hsp,
          ih (fun v hv => h v (List.mem_cons_of_mem _ hv))]

theorem spaceJoinTail_append (ws₁ ws₂ : List (List Char)) :
    spaceJoinTail (ws₁ ++ ws₂) = spaceJoinTail ws₁ ++ spaceJoinTail ws₂ := by
  induction ws₁ with
  | nil => rfl
  | cons w ws ih => simp [spaceJoinTail, ih]

theorem mem_spaceJoinTail (c : Char) (ws : List (List Char))
    (h : c ∈ spaceJoinTail ws) : c = ' ' ∨ ∃ w ∈ ws, c ∈ w := by
  induction ws with
  | nil => simp [spaceJoinTail] at h
  | cons w ws ih =>
    simp only [spaceJoinTail, List.mem_cons, List.mem_append] at h
    rcases h with h | h | h
    · exact Or.inl h
    · exact Or.inr ⟨w, List.mem_cons_self w ws, h⟩
    · rcases ih h with h | ⟨v, hv, hc⟩
      · exact Or.inl h
      · exact Or.inr ⟨v, List.mem_cons_of_mem w hv, hc⟩

theorem mem_spaceJoin (c : Char) (ws : List (List Char))
    (h : c ∈ spaceJoin ws) : c = ' ' ∨ ∃ w ∈ ws, c ∈ w := by
  cases ws with
  | nil => simp [spaceJoin] at h
  | cons w ws =>
    simp only [spaceJoin, List.mem_append] at h
    rcases h with h | h
    · exact Or.inr ⟨w, List.mem_cons_self w ws, h⟩
    · rcases mem_spaceJoinTail c ws h with h | ⟨v, hv, hc⟩
      · exact Or.inl h
      · exact Or.inr ⟨v, List.mem_cons_of_mem w hv, hc⟩

/-- Stripping a space-join of non-empty space-free words is the
identity: no leading or trailing whitespace exists. -/
theorem pyStrip_spaceJoin (ws : List (List Char))
    (h : ∀ w ∈ ws, w ≠ [] ∧ ∀ c ∈ w, isPySpace c = false) :
    pyStrip (spaceJoin ws) = spaceJoin ws := by
  rcases List.eq_nil_or_concat ws with hws | ⟨ws₀, v, hws⟩
  · subst hws; rfl
  · rw [List.concat_eq_append] at hws
    subst hws
    obtain ⟨hvne, hvch⟩ := h v (by simp)
    have hfront : (spaceJoin (ws₀ ++ [v])).dropWhile isPySpace
        = spaceJoin (ws₀ ++ [v]) := by
      cases hws₀ : ws₀ ++ [v] with
      | nil => simp at hws₀
      | cons w ws₁ =>
        have hwmem : w ∈ ws₀ ++ [v] := by
          rw [hws₀]; exact List.mem_cons_self w ws₁
        obtain ⟨hwne, hwch⟩ := h w hwmem
        cases w with
        | nil => exact absurd rfl hwne
        | cons c w₁ =>
          have hjw : spaceJoin ((c :: w₁) :: ws₁) = c :: (w₁ ++ spaceJoinTail ws₁) := by
            simp [spaceJoin]
          rw [hjw]
          exact dropWhile_cons_false (hwch c (List.mem_cons_self c w₁))
    have hform : ∃ X : List Char, spaceJoin (ws₀ ++ [v]) = X ++ v := by
      cases ws₀ with
      | nil => exact ⟨[], by simp [spaceJoin, spaceJoinTail]⟩
      | cons w ws₁ =>
        refine ⟨w ++ spaceJoinTail ws₁ ++ [' '], ?_⟩
        simp [spaceJoin, spaceJoinTail_append, spaceJoinTail, List.append_assoc]
    have hback : ((spaceJoin (ws₀ ++ [v])).reverse).dropWhile isPySpace
        = (spaceJoin (ws₀ ++ [v])).reverse := by
      obtain ⟨X, hX⟩ := hform
      rw [hX, List.reverse_append]
      cases hv : v.reverse with
      | nil => exact absurd (List.reverse_eq_nil_iff.mp hv) hvne
      | cons d t =>
        have hd : d ∈ v := List.mem_reverse.mp (hv ▸ List.mem_cons_self d t)
        rw [List.cons_append]
        exact dropWhile_cons_false (hvch d hd)
    rw [pyStrip, hfront, hback, List.reverse_reverse]

/-- Canonical form of a cleaned address: a space-join of non-empty,
space-free words made of allowed characters. -/
theorem cleanAddress_canonical (s : List Char) :
    ∃ ws : List (List Char),
      cleanAddress (some s) = spaceJoin ws ∧
      (∀ w ∈ ws, w ≠ [] ∧ ∀ c ∈ w, isPySpace c = false) ∧
      (∀ w ∈ ws, ∀ c ∈ w, isAllowedChar c = true) := by
  by_cases hs : s = []
  · refine ⟨[], ?_, by simp, by simp⟩
    rw [hs]
    rfl
  · have hdef : cleanAddress (some s)
        = pyStrip (spaceJoin (pySplit ((parenSub (pyReplace ("을지로지하".toList)
            ("을지로 지하".toList) (pyReplace ("청게천".toList) ("청계천".toList)
              (pyStrip s)))).filter isAllowedChar))) := by
      simp only [cleanAddress, if_neg hs]
    set u := (parenSub (pyReplace ("을지로지하".toList) ("을지로 지하".toList)
      (pyReplace ("청게천".toList) ("청계천".toList) (pyStrip s)))).filter
        isAllowedChar with hu
    have hwords : ∀ w ∈ pySplit u, w ≠ [] ∧ ∀ c ∈ w, isPySpace c = false :=
      fun w hw => ⟨(pySplit_sound u w hw).1,
        fun c hc => ((pySplit_sound u w hw).2 c hc).1⟩
    refine ⟨pySplit u, ?_, hwords, ?_⟩
    · rw [hdef, pyStrip_spaceJoin _ hwords]
    · intro w hw c hc
      have hcu : c ∈ u := ((pySplit_sound u w hw).2 c hc).2
      rw [hu] at hcu
      exact (List.mem_filter.mp hcu).2

/-- C3 (amended): the normalizer is idempotent on every input whose
normalized form contains neither typo pattern (`청게천`, `을지로지하`) as
a substring.  (Character stripping can concatenate fragments into a typo
pattern, so unconditional idempotence fails; see the counterexample.) -/
theorem claim_c3 (s : List Char)
    (h1 : containsSub ("청게천".toList) (cleanAddress (some s)) = false)
    (h2 : containsSub ("을지로지하".toList) (cleanAddress (some s)) = false) :
    cleanAddress (some (cleanAddress (some s))) = cleanAddress (some s) := by
  obtain ⟨ws, hjoin, hwords, hallowed⟩ := cleanAddress_canonical s
  set t := cleanAddress (some s) with ht
  by_cases htn : t = []
  · rw [htn]
    rfl
  · have hstep : cleanAddress (some t)
        = pyStrip (spaceJoin (pySplit ((parenSub (pyReplace ("을지로지하".toList)
            ("을지로 지하".toList) (pyReplace ("청게천".toList) ("청계천".toList)
              (pyStrip t)))).filter isAllowedChar))) := by
      simp only [cleanAddress, if_neg htn]
    have hchar : ∀ c ∈ t, isAllowedChar c = true := by
      intro c hc
      rw [hjoin] at hc
      rcases mem_spaceJoin c ws hc with hc | ⟨w, hw, hcw⟩
      · rw [hc]; decide
      · exact hallowed w hw c hcw
    have hF1 : pyStrip t = t := by
      rw [hjoin]
      exact pyStrip_spaceJoin ws hwords
    have hF2 : pyReplace ("청게천".toList) ("청계천".toList) t = t :=
      pyReplace_of_not_contains _ _ _ h1
    have hF3 : pyReplace ("을지로지하".toList) ("을지로 지하".toList) t = t :=
      pyReplace_of_not_contains _ _ _ h2
    have hF4 : parenSub t = t := by
      refine parenSub_of_no_open t (fun c hc hceq => ?_)
      have hca := hchar c hc
      rw [hceq] at hca
      exact absurd hca (by decide)
    have hF5 : t.filter isAllowedChar = t :=
      List.filter_eq_self.mpr hchar
    have hF6 : pySplit t = ws := by
      rw [hjoin]
      exact pySplit_spaceJoin ws hwords
    rw [hstep, hF1, hF2, hF3, hF4, hF5, hF6, ← hjoin, hF1]

/-- C3 witness: the conditional idempotence applied at a concrete
already-messy address. -/
theorem claim_c3_witness :
    cleanAddress (some (cleanAddress (some ("  청계천로  14 ".toList))))
      = cleanAddress (some ("  청계천로  14 ".toList)) :=
  claim_c3 ("  청계천로  14 ".toList) (by decide) (by decide)

/-- C3 counterexample: stripping the disallowed `*` concatenates
`청게` and `천` into the typo pattern, so a second normalization pass
changes the string again — idempotence fails as stated. -/
theorem claim_c3_counterexample :
    ¬ (cleanAddress (some (cleanAddress (some ("청게*천".toList))))
        = cleanAddress (some ("청게*천".toList))) := by
  decide

/-- C1 (amended): the spec's example input normalizes to `청계천로 14`:
the typo is corrected, but the parenthesized segment is removed entirely
(content included), so no compound-split text survives. -/
theorem claim_c1 :
    cleanAddress (some ("청게천로 14(을지로지하 3번)".toList))
      = "청계천로 14".toList := by
  decide

/-- C1 counterexample: the normalizer does not return the spec's claimed
string `청계천로 14 을지로 지하 3번` on the example input. -/
theorem claim_c1_counterexample :
    ¬ (cleanAddress (some ("청게천로 14(을지로지하 3번)".toList))
        = "청계천로 14 을지로 지하 3번".toList) := by
  decide

/-! ### Flag behaviour of the client and resolver -/

theorem callNaverApi_flag_true (env : GeoEnv) (q : List Char) :
    (callNaverApi env true q).2.1 = true := by
  simp only [callNaverApi]
  split
  · rfl
  · split
    · split <;> rfl
    · split <;> rfl

theorem getCoordinates_flag_true (env : GeoEnv) (creds : Creds)
    (city addr desc : List Char) :
    (getCoordinates env creds true city addr desc).2.1 = true := by
  simp [getCoordinates]

/-- C5: if the circuit is already tripped, or no provider credentials
are configured, resolution returns absent immediately and issues no
network calls.  (The source's guard tests `auth_failed` and the client
id; absent credentials in particular mean an absent id.) -/
theorem claim_c5 (env : GeoEnv) (creds : Creds) (af : Bool)
    (city addr desc : List Char)
    (h : af = true ∨ (creds.id = [] ∧ creds.secret = [])) :
    getCoordinates env creds af city addr desc = (none, af, []) := by
  rcases h with h | ⟨h, -⟩
  · simp [getCoordinates, h]
  · simp [getCoordinates, h]

/-- C5 witness. -/
theorem claim_c5_witness :
    getCoordinates (fun _ => ⟨200, none⟩) ⟨[], []⟩ false
        ("중구".toList) ("세종대로 110".toList) [] = (none, false, []) :=
  claim_c5 _ _ _ _ _ _ (Or.inr ⟨rfl, rfl⟩)

/-- C6: an HTTP 401/403 answer makes the client return absent with the
shared flag set — a signal distinct from an ordinary not-found, which
leaves the flag untouched — and the signal is visible at the
resolver/pool layer: a resolution that starts once the flag is set
short-circuits to absent with no network call, and the pool's completion
loop halts as soon as it observes the flag. -/
theorem claim_c6 (env : GeoEnv) (creds : Creds) (af : Bool) (q : List Char)
    (hq : 2 ≤ q.length) :
    (((env q).status = 401 ∨ (env q).status = 403) →
        callNaverApi env af q = (none, true, [(q, af)])) ∧
    ((env q).status = 200 → (env q).payload = none →
        callNaverApi env af q = (none, af, [(q, af)])) ∧
    (∀ city addr desc, getCoordinates env creds true city addr desc
        = (none, true, [])) ∧
    (∀ (flagAt : Nat → Bool) (p : Completion) (rest : List Completion)
        (k : Nat) (acc : List (Option (Option (ℚ × ℚ)))) (tr : List Nat),
      flagAt k = true →
      collectLoop flagAt (p :: rest) k acc tr = (acc, tr.reverse)) := by
  have hne : ¬ q = [] := by
    intro h
    rw [h] at hq
    simp at hq
  have hnl : ¬ q.length < 2 := by omega
  refine ⟨?_, ?_, ?_, ?_⟩
  · intro h
    rcases h with h | h <;> simp [callNaverApi, hne, hnl, h]
  · intro h hp
    simp [callNaverApi, hne, hnl, h, hp]
  · intro city addr desc
    simp [getCoordinates]
  · intro flagAt p rest k acc tr hfl
    obtain ⟨i, v⟩ := p
    simp [collectLoop, hfl]

/-- C6 witness. -/
theorem claim_c6_witness :
    callNaverApi (fun _ => ⟨401, none⟩) false ("서울특별시 중구 ab".toList)
      = (none, true, [("서울특별시 중구 ab".toList, false)]) :=
  (claim_c6 (fun _ => ⟨401, none⟩) ⟨"id".toList, "sec".toList⟩ false
    ("서울특별시 중구 ab".toList) (by decide)).1 (Or.inl rfl)

/-- C2 (amended): the circuit flag is consulted only at the start of a
record's resolution — a record that starts with the flag tripped issues
no network calls and the flag only ever transitions to `true` — and the
tier sequence is gated exactly as the source writes it: a truthy tier-1
answer ends resolution at tier 1; tier 2 is attempted only after a
falsy tier 1 and only when the cleaned address contains `지하`, and a
truthy tier-2 answer ends resolution with no tier-3 call; tier 3 is
attempted only after the earlier tiers failed and only when the
combined text contains `역` with an extractable station name, otherwise
the record resolves to absent.  But the flag is not re-checked between
tiers, so an auth failure during a record's earlier tier does not stop
that same record's later tiers from issuing network calls (see the
counterexample). -/
theorem claim_c2 (env : GeoEnv) (creds : Creds) (af : Bool)
    (city addr desc : List Char) :
    (af = true → getCoordinates env creds af city addr desc = (none, af, [])) ∧
    ((getCoordinates env creds af city addr desc).2.1 = false → af = false) ∧
    (af = false → creds.id ≠ [] →
      truthyCoord (callNaverApi env af
          (mkQuery city (cleanAddress (some addr)))).1 = true →
      getCoordinates env creds af city addr desc
        = callNaverApi env af (mkQuery city (cleanAddress (some addr)))) ∧
    (af = false → creds.id ≠ [] →
      ¬ truthyCoord (tier1Attempt env af city addr).1 = true →
      containsSub ("지하".toList) (cleanAddress (some addr)) = true →
      truthyCoord
          (tier2Attempt env (tier1Attempt env af city addr).2.1 city addr).1
        = true →
      getCoordinates env creds af city addr desc
        = ((tier2Attempt env (tier1Attempt env af city addr).2.1 city addr).1,
           (tier2Attempt env (tier1Attempt env af city addr).2.1 city addr).2.1,
           (tier1Attempt env af city addr).2.2 ++
             (tier2Attempt env (tier1Attempt env af city addr).2.1 city addr).2.2)) ∧
    (af = false → creds.id ≠ [] →
      ¬ truthyCoord (tier1Attempt env af city addr).1 = true →
      containsSub ("지하".toList) (cleanAddress (some addr)) = false →
      (containsSub ("역".toList) (combinedText addr desc) = false ∨
        findStation (combinedText addr desc) = none) →
      getCoordinates env creds af city addr desc
        = (none, (tier1Attempt env af city addr).2.1,
           (tier1Attempt env af city addr).2.2)) ∧
    (af = false → creds.id ≠ [] →
      ¬ truthyCoord (tier1Attempt env af city addr).1 = true →
      containsSub ("지하".toList) (cleanAddress (some addr)) = true →
      ¬ truthyCoord
          (tier2Attempt env (tier1Attempt env af city addr).2.1 city addr).1
        = true →
      (containsSub ("역".toList) (combinedText addr desc) = false ∨
        findStation (combinedText addr desc) = none) →
      getCoordinates env creds af city addr desc
        = (none,
           (tier2Attempt env (tier1Attempt env af city addr).2.1 city addr).2.1,
           (tier1Attempt env af city addr).2.2 ++
             (tier2Attempt env (tier1Attempt env af city addr).2.1 city addr).2.2)) ∧
    (∀ st : List Char, af = false → creds.id ≠ [] →
      ¬ truthyCoord (tier1Attempt env af city addr).1 = true →
      containsSub ("지하".toList) (cleanAddress (some addr)) = false →
      containsSub ("역".toList) (combinedText addr desc) = true →
      findStation (combinedText addr desc) = some st →
      getCoordinates env creds af city addr desc
        = (if truthyCoord
              (tier3Attempt env (tier1Attempt env af city addr).2.1 city st).1
              = true then
            ((tier3Attempt env (tier1Attempt env af city addr).2.1 city st).1,
             (tier3Attempt env (tier1Attempt env af city addr).2.1 city st).2.1,
             (tier1Attempt env af city addr).2.2 ++
               (tier3Attempt env (tier1Attempt env af city addr).2.1 city st).2.2)
          else
            (none,
             (tier3Attempt env (tier1Attempt env af city addr).2.1 city st).2.1,
             (tier1Attempt env af city addr).2.2 ++
               (tier3Attempt env (tier1Attempt env af city addr).2.1 city st).2.2))) ∧
    (∀ st : List Char, af = false → creds.id ≠ [] →
      ¬ truthyCoord (tier1Attempt env af city addr).1 = true →
      containsSub ("지하".toList) (cleanAddress (some addr)) = true →
      ¬ truthyCoord
          (tier2Attempt env (tier1Attempt env af city addr).2.1 city addr).1
        = true →
      containsSub ("역".toList) (combinedText addr desc) = true →
      findStation (combinedText addr desc) = some st →
      getCoordinates env creds af city addr desc
        = (if truthyCoord (tier3Attempt env
              (tier2Attempt env (tier1Attempt env af city addr).2.1 city addr).2.1
              city st).1 = true then
            ((tier3Attempt env
                (tier2Attempt env (tier1Attempt env af city addr).2.1 city addr).2.1
                city st).1,
             (tier3Attempt env
                (tier2Attempt env (tier1Attempt env af city addr).2.1 city addr).2.1
                city st).2.1,
             (tier1Attempt env af city addr).2.2 ++
               (tier2Attempt env (tier1Attempt env af city addr).2.1 city addr).2.2 ++
               (tier3Attempt env
                  (tier2Attempt env (tier1Attempt env af city addr).2.1 city addr).2.1
                  city st).2.2)
          else
            (none,
             (tier3Attempt env
                (tier2Attempt env (tier1Attempt env af city addr).2.1 city addr).2.1
                city st).2.1,
             (tier1Attempt env af city addr).2.2 ++
               (tier2Attempt env (tier1Attempt env af city addr).2.1 city addr).2.2 ++
               (tier3Attempt env
                  (tier2Attempt env (tier1Attempt env af city addr).2.1 city addr).2.1
                  city st).2.2))) := by
  have hcn : ¬ (truthyCoord (none : Option (ℚ × ℚ)) = true) := by
    simp [truthyCoord]
  refine ⟨fun h => by simp [getCoordinates, h], ?_, ?_, ?_, ?_, ?_, ?_, ?_⟩
  · intro h
    cases af with
    | false => rfl
    | true => rw [getCoordinates_flag_true] at h; exact h
  · intro haf hid htr
    rw [haf]
    rw [haf] at htr
    simp [getCoordinates, hid, htr]
  · intro haf hid htr1 hji htr2
    subst haf
    simp only [tier1Attempt, tier2Attempt, tier1Query, tier2Query] at htr1 htr2 ⊢
    simp only [getCoordinates]
    rw [if_neg (by simp [hid] : ¬ ((false || decide (creds.id = [])) = true))]
    rw [if_neg htr1, if_pos hji]
    dsimp only
    rw [if_pos htr2]
  · intro haf hid htr1 hji hyc
    subst haf
    simp only [tier1Attempt, tier1Query, combinedText] at htr1 hyc ⊢
    simp only [getCoordinates]
    rw [if_neg (by simp [hid] : ¬ ((false || decide (creds.id = [])) = true))]
    rw [if_neg htr1,
      if_neg (show ¬ (containsSub ("지하".toList) (cleanAddress (some addr))
        = true) from by rw [hji]; simp)]
    dsimp only
    rw [if_neg hcn]
    rcases hyc with hyc | hyc
    · rw [if_neg (show ¬ (containsSub ("역".toList)
        (addr ++ " ".toList ++ desc) = true) from by rw [hyc]; simp)]
    · by_cases hyk : containsSub ("역".toList) (addr ++ " ".toList ++ desc) = true
      · rw [if_pos hyk, hyc]
      · rw [if_neg hyk]
  · intro haf hid htr1 hji htr2 hyc
    subst haf
    simp only [tier1Attempt, tier2Attempt, tier1Query, tier2Query,
      combinedText] at htr1 htr2 hyc ⊢
    simp only [getCoordinates]
    rw [if_neg (by simp [hid] : ¬ ((false || decide (creds.id = [])) = true))]
    rw [if_neg htr1, if_pos hji]
    dsimp only
    rw [if_neg htr2]
    rcases hyc with hyc | hyc
    · rw [if_neg (show ¬ (containsSub ("역".toList)
        (addr ++ " ".toList ++ desc) = true) from by rw [hyc]; simp)]
    · by_cases hyk : containsSub ("역".toList) (addr ++ " ".toList ++ desc) = true
      · rw [if_pos hyk, hyc]
      · rw [if_neg hyk]
  · intro st haf hid htr1 hji hyk hst
    subst haf
    simp only [tier1Attempt, tier3Attempt, tier1Query,
      combinedText] at htr1 hyk hst ⊢
    simp only [getCoordinates]
    rw [if_neg (by simp [hid] : ¬ ((false || decide (creds.id = [])) = true))]
    rw [if_neg htr1,
      if_neg (show ¬ (containsSub ("지하".toList) (cleanAddress (some addr))
        = true) from by rw [hji]; simp)]
    dsimp only
    rw [if_neg hcn, if_pos hyk, hst]
  · intro st haf hid htr1 hji htr2 hyk hst
    subst haf
    simp only [tier1Attempt, tier2Attempt, tier3Attempt, tier1Query, tier2Query,
      combinedText] at htr1 htr2 hyk hst ⊢
    simp only [getCoordinates]
    rw [if_neg (by simp [hid] : ¬ ((false || decide (creds.id = [])) = true))]
    rw [if_neg htr1, if_pos hji]
    dsimp only
    rw [if_neg htr2, if_pos hyk, hst]

/-- C2 witness: a record starting with the flag tripped resolves to
absent with no calls. -/
theorem claim_c2_witness :
    getCoordinates (fun _ => ⟨200, none⟩) ⟨"id".toList, "s".toList⟩ true
      ("중구".toList) ("세종대로 110".toList) [] = (none, true, []) :=
  (claim_c2 (fun _ => ⟨200, none⟩) ⟨"id".toList, "s".toList⟩ true
    ("중구".toList) ("세종대로 110".toList) []).1 rfl

/-- C2 counterexample: with a provider answering 401, a record whose
normalized address contains `지하` trips the flag on its tier-1 call and
then still issues its tier-2 call — so it is false that no tier attempt
issues a network call once the circuit is tripped (the second trace
entry records the call being issued with the flag already `true`). -/
theorem claim_c2_counterexample :
    ¬ (∀ e ∈ (getCoordinates (fun _ => ⟨401, none⟩)
        ⟨"id".toList, "s".toList⟩ false
        ("중구".toList) ("지하1".toList) []).2.2, e.2 = false) := by
  decide

/-! ### Zero-latitude answers behave as not-found -/

theorem pair_eq {α β : Type} {p r : α × β} (h1 : p.1 = r.1) (h2 : p.2 = r.2) :
    p = r := by
  cases p
  cases r
  simp_all

/-- Replacing a zero-latitude `OK` answer by a not-found answer at one
query is unobservable at the client: truthiness, flag and trace agree,
and the returned value agrees whenever it is truthy. -/
theorem callNaverApi_zero_cong (env : GeoEnv) (q : List Char) (x : ℚ)
    (hq : env q = ⟨200, some (0, x)⟩) (af : Bool) (p : List Char) :
    truthyCoord (callNaverApi env af p).1
        = truthyCoord (callNaverApi
            (fun r => if r = q then ⟨200, none⟩ else env r) af p).1 ∧
    (callNaverApi env af p).2
        = (callNaverApi (fun r => if r = q then ⟨200, none⟩ else env r) af p).2 ∧
    (truthyCoord (callNaverApi env af p).1 = true →
      (callNaverApi env af p).1
        = (callNaverApi (fun r => if r = q then ⟨200, none⟩ else env r) af p).1) := by
  by_cases hp : p = q
  · subst hp
    simp only [callNaverApi, hq, if_pos rfl]
    split
    · simp
    · refine ⟨by simp [truthyCoord], by simp, fun h => absurd h (by simp [truthyCoord])⟩
  · have henv : (fun r => if r = q then HttpResp.mk 200 none else env r) p
        = env p := by
      simp [hp]
    simp [callNaverApi, henv]

theorem truthy_fst_ne_zero {o : Option (ℚ × ℚ)} {p : ℚ × ℚ}
    (ho : o = some p) (ht : truthyCoord o = true) : p.1 ≠ 0 := by
  subst ho
  rcases p with ⟨y, x⟩
  simpa [truthyCoord] using ht

/-- The resolver never returns zero-latitude coordinates: a tier answer
is kept only when its latitude is truthy. -/
theorem getCoordinates_fst_ne_zero (env : GeoEnv) (creds : Creds) (af : Bool)
    (city addr desc : List Char) (p : ℚ × ℚ)
    (h : (getCoordinates env creds af city addr desc).1 = some p) : p.1 ≠ 0 := by
  revert h
  simp only [getCoordinates]
  split
  · intro h
    exact absurd h (by simp)
  · split
    · rename_i ht
      intro h
      exact truthy_fst_ne_zero h ht
    · split
      · split
        · rename_i ht
          intro h
          exact truthy_fst_ne_zero h ht
        · split
          · split
            · split
              · rename_i ht
                intro h
                simp only at h
                exact truthy_fst_ne_zero h ht
              · intro h
                exact absurd h (by simp)
            · intro h
              exact absurd h (by simp)
          · intro h
            exact absurd h (by simp)
      · split
        · rename_i ht
          exact absurd ht (by simp [truthyCoord])
        · split
          · split
            · split
              · rename_i ht
                intro h
                simp only at h
                exact truthy_fst_ne_zero h ht
              · intro h
                exact absurd h (by simp)
            · intro h
              exact absurd h (by simp)
          · intro h
            exact absurd h (by simp)

/-- C10: the resolver judges a tier by the Python truthiness of the
returned latitude, so an answer whose latitude is exactly `0` is treated
as absent: replacing such an answer by a not-found answer changes
nothing (same result, same flag, same calls — the following tiers are
attempted and the record resolves to absent unless a later tier
succeeds), and the resolver never returns zero-latitude coordinates
(they are always discarded). -/
theorem claim_c10 (env : GeoEnv) (creds : Creds) (af : Bool)
    (city addr desc q : List Char) (x : ℚ)
    (hq : env q = ⟨200, some (0, x)⟩) :
    (getCoordinates env creds af city addr desc
      = getCoordinates (fun r => if r = q then ⟨200, none⟩ else env r)
          creds af city addr desc) ∧
    (∀ p : ℚ × ℚ,
      (getCoordinates env creds af city addr desc).1 = some p → p.1 ≠ 0) := by
  refine ⟨?_, fun p hp => getCoordinates_fst_ne_zero env creds af city addr desc p hp⟩
  simp only [getCoordinates]
  split
  · rfl
  · obtain ⟨ht1, hs1, hv1⟩ := callNaverApi_zero_cong env q x hq af
      (mkQuery city (cleanAddress (some addr)))
    set ca := cleanAddress (some addr) with hca
    set a1 := callNaverApi env af (mkQuery city ca) with ha1
    set b1 := callNaverApi (fun r => if r = q then ⟨200, none⟩ else env r) af
      (mkQuery city ca) with hb1
    have hflag1 : a1.2.1 = b1.2.1 := congrArg Prod.fst hs1
    have htrace1 : a1.2.2 = b1.2.2 := congrArg Prod.snd hs1
    by_cases htr1 : truthyCoord a1.1 = true
    · rw [if_pos htr1, if_pos (ht1 ▸ htr1)]
      exact pair_eq (hv1 htr1) hs1
    · rw [if_neg htr1, if_neg (fun h => htr1 (ht1.trans h))]
      rw [← hflag1, ← htrace1]
      obtain ⟨ht2, hs2, hv2⟩ := callNaverApi_zero_cong env q x hq a1.2.1
        (mkQuery city (pyStrip (pyReplace ("지하".toList) [] ca)))
      set a2 := callNaverApi env a1.2.1
        (mkQuery city (pyStrip (pyReplace ("지하".toList) [] ca))) with ha2
      set b2 := callNaverApi (fun r => if r = q then ⟨200, none⟩ else env r)
        a1.2.1 (mkQuery city (pyStrip (pyReplace ("지하".toList) [] ca))) with hb2
      have hflag2 : a2.2.1 = b2.2.1 := congrArg Prod.fst hs2
      have htrace2 : a2.2.2 = b2.2.2 := congrArg Prod.snd hs2
      by_cases hji : containsSub ("지하".toList) ca = true
      · rw [if_pos hji, if_pos hji]
        dsimp only
        by_cases htr2 : truthyCoord a2.1 = true
        · rw [if_pos htr2, if_pos (ht2 ▸ htr2)]
          rw [hv2 htr2, hflag2, htrace2]
        · rw [if_neg htr2, if_neg (fun h => htr2 (ht2.trans h))]
          by_cases hyk : containsSub ("역".toList) (addr ++ " ".toList ++ desc) = true
          · rw [if_pos hyk, if_pos hyk]
            cases hst : findStation (addr ++ " ".toList ++ desc) with
            | none =>
              dsimp only
              rw [hflag2, htrace2]
            | some st =>
              dsimp only
              rw [← hflag2, ← htrace2]
              obtain ⟨ht3, hs3, hv3⟩ := callNaverApi_zero_cong env q x hq a2.2.1
                (mkQuery city st)
              set a3 := callNaverApi env a2.2.1 (mkQuery city st) with ha3
              set b3 := callNaverApi (fun r => if r = q then ⟨200, none⟩ else env r)
                a2.2.1 (mkQuery city st) with hb3
              by_cases htr3 : truthyCoord a3.1 = true
              · rw [if_pos htr3, if_pos (ht3 ▸ htr3)]
                rw [hv3 htr3, congrArg Prod.fst hs3, congrArg Prod.snd hs3]
              · rw [if_neg htr3, if_neg (fun h => htr3 (ht3.trans h))]
                rw [congrArg Prod.fst hs3, congrArg Prod.snd hs3]
          · rw [if_neg hyk, if_neg hyk]
            rw [hflag2, htrace2]
      · rw [if_neg hji, if_neg hji]
        dsimp only
        have hcn : ¬(truthyCoord (none : Option (ℚ × ℚ)) = true) := by
          simp [truthyCoord]
        rw [if_neg hcn, if_neg hcn]
        by_cases hyk : containsSub ("역".toList) (addr ++ " ".toList ++ desc) = true
        · rw [if_pos hyk, if_pos hyk]
          cases hst : findStation (addr ++ " ".toList ++ desc) with
          | none => rfl
          | some st =>
            dsimp only
            obtain ⟨ht3, hs3, hv3⟩ := callNaverApi_zero_cong env q x hq a1.2.1
              (mkQuery city st)
            set a3 := callNaverApi env a1.2.1 (mkQuery city st) with ha3
            set b3 := callNaverApi (fun r => if r = q then ⟨200, none⟩ else env r)
              a1.2.1 (mkQuery city st) with hb3
            by_cases htr3 : truthyCoord a3.1 = true
            · rw [if_pos htr3, if_pos (ht3 ▸ htr3)]
              rw [hv3 htr3, congrArg Prod.fst hs3, congrArg Prod.snd hs3]
            · rw [if_neg htr3, if_neg (fun h => htr3 (ht3.trans h))]
              rw [congrArg Prod.fst hs3, congrArg Prod.snd hs3]
        · rw [if_neg hyk, if_neg hyk]

/-- C10 witness. -/
theorem claim_c10_witness :
    getCoordinates (fun _ => ⟨200, some (0, 5)⟩) ⟨"id".toList, "s".toList⟩ false
        ("중구".toList) ("세종대로 110".toList) []
      = getCoordinates (fun r => if r = "ab".toList then ⟨200, none⟩
          else (fun _ => (⟨200, some (0, 5)⟩ : HttpResp)) r)
          ⟨"id".toList, "s".toList⟩ false ("중구".toList) ("세종대로 110".toList) [] :=
  (claim_c10 (fun _ => ⟨200, some (0, 5)⟩) ⟨"id".toList, "s".toList⟩ false
    ("중구".toList) ("세종대로 110".toList) [] ("ab".toList) 5 rfl).1

/-- C4 (amended): the resolver does not skip records whose normalized
address is empty — the tier-1 query `서울특별시 {city} ` is still issued
(the region prefix makes the query at least 2 characters, so the
client's only guard cannot fire); only a query shorter than 2 characters
is suppressed by the client. -/
theorem claim_c4 (env : GeoEnv) (creds : Creds) (city addr desc : List Char)
    (hid : ¬ creds.id = []) (hca : cleanAddress (some addr) = []) :
    (∃ rest, (getCoordinates env creds false city addr desc).2.2
        = (mkQuery city [], false) :: rest) ∧
    (∀ (af : Bool) (p : List Char), p.length < 2 →
        callNaverApi env af p = (none, af, [])) := by
  constructor
  · have h6 : ("서울특별시 ".toList).length = 6 := rfl
    have hq1 : (callNaverApi env false (mkQuery city [])).2.2
        = [(mkQuery city [], false)] := by
      have hne : ¬ (mkQuery city [] = []) := by simp [mkQuery]
      have hlen : ¬ ((mkQuery city []).length < 2) := by
        simp [mkQuery, h6]
      simp only [callNaverApi]
      rw [if_neg (by simp [hne, hlen])]
      split
      · split <;> rfl
      · split <;> rfl
    simp only [getCoordinates]
    rw [if_neg (by simp [hid] : ¬ ((false || decide (creds.id = [])) = true)), hca]
    set r1 := callNaverApi env false (mkQuery city []) with hr1
    by_cases htr1 : truthyCoord r1.1 = true
    · rw [if_pos htr1]
      exact ⟨[], hq1⟩
    · rw [if_neg htr1]
      rw [if_neg (by decide : ¬ (containsSub ("지하".toList) ([] : List Char) = true))]
      dsimp only
      have hcn : ¬ (truthyCoord (none : Option (ℚ × ℚ)) = true) := by
        simp [truthyCoord]
      rw [if_neg hcn]
      by_cases hyk : containsSub ("역".toList) (addr ++ " ".toList ++ desc) = true
      · rw [if_pos hyk]
        cases hst : findStation (addr ++ " ".toList ++ desc) with
        | none =>
          dsimp only
          exact ⟨[], hq1⟩
        | some st =>
          dsimp only
          by_cases htr3 : truthyCoord (callNaverApi env r1.2.1 (mkQuery city st)).1 = true
          · rw [if_pos htr3]
            exact ⟨(callNaverApi env r1.2.1 (mkQuery city st)).2.2, by rw [hq1]; rfl⟩
          · rw [if_neg htr3]
            exact ⟨(callNaverApi env r1.2.1 (mkQuery city st)).2.2, by rw [hq1]; rfl⟩
      · rw [if_neg hyk]
        exact ⟨[], hq1⟩
  · intro af p hp
    simp [callNaverApi, hp]

/-- C4 witness. -/
theorem claim_c4_witness :
    (∃ rest, (getCoordinates (fun _ => ⟨200, none⟩) ⟨"id".toList, "s".toList⟩
        false ("강남구".toList) ("(서울)".toList) []).2.2
        = (mkQuery ("강남구".toList) [], false) :: rest) ∧
    (∀ (af : Bool) (p : List Char), p.length < 2 →
        callNaverApi (fun _ => ⟨200, none⟩) af p = (none, af, [])) :=
  claim_c4 (fun _ => ⟨200, none⟩) ⟨"id".toList, "s".toList⟩ ("강남구".toList)
    ("(서울)".toList) [] (by decide) (by decide)

/-- C4 counterexample: a record whose raw address normalizes to the
empty string still causes a network call (the tier-1 trace is
non-empty), contrary to the claim that no GeocodeClient calls are made
for such a record. -/
theorem claim_c4_counterexample :
    ¬ ((getCoordinates (fun _ => ⟨200, none⟩) ⟨"id".toList, "s".toList⟩ false
        ("강남구".toList) ("(서울)".toList) []).2.2 = []) := by
  decide

/-- Invariant of the completion loop: the slot list keeps its length,
every index is written at most once (the write trace has no
duplicates), and each slot holds either its initial `none` or the value
computed for its own index. -/
theorem collectLoop_spec (flagAt : Nat → Bool) (res : Nat → Option (ℚ × ℚ))
    (n : Nat) :
    ∀ (comps : List Completion) (k : Nat)
      (acc : List (Option (Option (ℚ × ℚ)))) (tr : List Nat),
      acc.length = n →
      (∀ p ∈ comps, p.1 < n ∧ p.2 = res p.1) →
      ((comps.map Prod.fst) ++ tr).Nodup →
      (∀ i, i < n → acc[i]? = some none ∨ acc[i]? = some (some (res i))) →
      ((collectLoop flagAt comps k acc tr).1.length = n ∧
       (collectLoop flagAt comps k acc tr).2.Nodup ∧
       (∀ i, i < n →
         (collectLoop flagAt comps k acc tr).1[i]? = some none ∨
         (collectLoop flagAt comps k acc tr).1[i]? = some (some (res i)))) := by
  intro comps
  induction comps with
  | nil =>
    intro k acc tr hlen hcomp hnd hacc
    simp only [collectLoop]
    exact ⟨hlen, List.nodup_reverse.mpr hnd, hacc⟩
  | cons p rest ih =>
    obtain ⟨i, v⟩ := p
    intro k acc tr hlen hcomp hnd hacc
    simp only [collectLoop]
    by_cases hf : flagAt k = true
    · rw [if_pos hf]
      refine ⟨hlen, List.nodup_reverse.mpr ?_, hacc⟩
      exact List.Nodup.of_append_right hnd
    · rw [if_neg hf]
      have hin : i < n := (hcomp (i, v) (List.mem_cons_self _ _)).1
      have hiv : v = res i := (hcomp (i, v) (List.mem_cons_self _ _)).2
      refine ih (k + 1) (acc.set i (some v)) (i :: tr) ?_ ?_ ?_ ?_
      · rw [List.length_set, hlen]
      · exact fun p hp => hcomp p (List.mem_cons_of_mem _ hp)
      · exact List.Perm.nodup List.perm_middle.symm hnd
      · intro j hj
        by_cases hij : i = j
        · subst hij
          right
          rw [List.getElem?_set_self (by rw [hlen]; exact hin), hiv]
        · rw [List.getElem?_set_ne hij]
          exact hacc j hj

/-- C7: the completion loop preserves the pool invariant for any
completion order, any worker results and any circuit-breaking point:
the outcome sequence has exactly one slot per input record, every slot
is written at most once, and slot `i` holds either nothing or the value
the worker computed for the record at position `i`. -/
theorem claim_c7 (env : GeoEnv) (creds : Creds) (records : List AddressRecord)
    (flagOf : Nat → Bool) (comps : List Completion) (flagAt : Nat → Bool)
    (hcomp : ∀ p ∈ comps, p.1 < records.length ∧
        p.2 = workerResult env creds (flagOf p.1) records[p.1]?)
    (hnd : (comps.map Prod.fst).Nodup) :
    (resolveAllSlots records.length comps flagAt).1.length = records.length ∧
    (resolveAllSlots records.length comps flagAt).2.Nodup ∧
    (∀ i, i < records.length →
      (resolveAllSlots records.length comps flagAt).1[i]? = some none ∨
      (resolveAllSlots records.length comps flagAt).1[i]?
        = some (some (workerResult env creds (flagOf i) records[i]?))) := by
  refine collectLoop_spec flagAt
    (fun i => workerResult env creds (flagOf i) records[i]?) records.length
    comps 0 (List.replicate records.length none) [] ?_ hcomp (by simpa using hnd) ?_
  · exact List.length_replicate _ _
  · intro i hi
    left
    rw [List.getElem?_replicate, if_pos hi]

/-- C7 witness: two records, completions arriving out of order, no
circuit break. -/
theorem claim_c7_witness :
    (resolveAllSlots ([⟨"중구".toList, "세종대로 110".toList, []⟩,
        ⟨"강남구".toList, "테헤란로 1".toList, []⟩] :
          List AddressRecord).length
      [(1, none), (0, none)] (fun _ => false)).1.length
        = ([⟨"중구".toList, "세종대로 110".toList, []⟩,
            ⟨"강남구".toList, "테헤란로 1".toList, []⟩] :
              List AddressRecord).length ∧
    (resolveAllSlots 2 [(1, none), (0, none)] (fun _ => false)).2.Nodup ∧
    (∀ i, i < 2 →
      (resolveAllSlots 2 [(1, none), (0, none)] (fun _ => false)).1[i]? = some none ∨
      (resolveAllSlots 2 [(1, none), (0, none)] (fun _ => false)).1[i]?
        = some (some (workerResult (fun _ => ⟨404, none⟩) ⟨"id".toList, "s".toList⟩
            ((fun _ => false) i)
            ([⟨"중구".toList, "세종대로 110".toList, []⟩,
              ⟨"강남구".toList, "테헤란로 1".toList, []⟩] :
                List AddressRecord)[i]?))) :=
  claim_c7 (fun _ => ⟨404, none⟩) ⟨"id".toList, "s".toList⟩
    [⟨"중구".toList, "세종대로 110".toList, []⟩,
     ⟨"강남구".toList, "테헤란로 1".toList, []⟩]
    (fun _ => false) [(1, none), (0, none)] (fun _ => false)
    (by decide) (by decide)

/-- C8: a run producing an empty or absent dataset performs no
destination writes at all — no truncate, no insert, no geometry
back-fill — so existing data is left untouched. -/
theorem claim_c8 {α : Type} (df : Option (List α))
    (h : df = none ∨ df = some []) : trashBinLoad df = [] := by
  rcases h with h | h <;> subst h <;> rfl

/-- C8 witness. -/
theorem claim_c8_witness :
    trashBinLoad (none : Option (List (List (Option ℚ)))) = [] :=
  claim_c8 none (Or.inl rfl)

/-- C9 (amended): the failure log is invoked exactly when the
unresolved count is positive, and when the artifact write succeeds the
transform returns the full dataset; but the write is not guarded, so a
write failure propagates and the transform does not return the dataset
(see the counterexample). -/
theorem claim_c9 (lats : List (Option ℚ)) (writeOk : Bool) :
    ((failureLogStep lats writeOk).1 = true ↔ 0 < failCount lats) ∧
    (0 < failCount lats → writeOk = false →
        transformTail lats writeOk = none) ∧
    (writeOk = true → transformTail lats writeOk = some lats) := by
  refine ⟨⟨fun h => ?_, fun h => ?_⟩, fun h hw => ?_, fun hw => ?_⟩
  · by_cases hc : 0 < failCount lats
    · exact hc
    · simp [failureLogStep, hc] at h
  · simp [failureLogStep, h]
  · subst hw
    simp [transformTail, failureLogStep, h]
  · subst hw
    by_cases hc : 0 < failCount lats <;>
      simp [transformTail, failureLogStep, hc]

/-- C9 witness: one unresolved row and a failing artifact write abort
the transform. -/
theorem claim_c9_witness : transformTail [none] false = none :=
  (claim_c9 [none] false).2.1 (by decide) rfl

/-- C9 counterexample: with one unresolved row and a failing log write,
the transform does not return the full dataset — the claim that a
logging failure cannot abort the batch is false on the code, which has
no exception handling around the artifact write. -/
theorem claim_c9_counterexample :
    ¬ (transformTail [none] false = some [none]) := by
  decide

end Etl
